import Mathlib

/-!
Shallow embedding of the attempt-submission and scoring subsystem of the
toeic-practice-app repository.

Embedded code:
* `src/app/api/quiz_sessions/[sessionId]/selected_options/route.ts` — the
  submission endpoint (`POST`): body parsing, duplicate check, auth, session
  lookup, question/option validation, score computation, delete / insert /
  score-update store operations.
* `src/unnamed/part_005` (`QuizSessionsContent`) and `src/unnamed/part_007`
  (`QuizzesContent`) — the read-time fallback reconciliation and the
  per-session score display.
* `src/unnamed/part_004` (`QuizSessionResult` / `QuizSessionContent`) — the
  detail view, which recomputes a score from the stored selections.

Modelling conventions:
* Database ids are `String`, numeric columns are `Int`; nullable columns are
  `Option Int`.  All model integers are finite, so the source's
  `Number.isFinite` guards are identically true in the model.
* A JavaScript `Map` built from a list of g/value pairs (later entries
  overwrite earlier ones) is modelled by `jsMapGet`.
* `Array.from(new Set(xs))` (first-occurrence deduplication) is modelled by
  `uniqueFirst`.
* Each fallible store operation of the endpoint is given an explicit failure
  flag in `Failures`; a failed operation performs no mutation, matching a
  failed single SQL statement.  The three mutations of the endpoint are
  separate statements with no enclosing transaction, exactly as in the source.
-/

namespace ToeicPractice

/-- Lookup in a JavaScript `Map` built with `new Map(entries)`: a later entry
with the same g overwrites an earlier one, so the recursion prefers the
tail. `none` models `undefined`. -/
def jsMapGet {β : Type} : List (String × β) → String → Option β
  | [], _ => none
  | e :: rest, g =>
    match jsMapGet rest g with
    | some v => some v
    | none => if e.1 = g then some e.2 else none

/-- First-occurrence deduplication with an accumulator of already-seen keys:
the body of `Array.from(new Set(xs))`. -/
def uniqueFirstAux : List String → List String → List String
  | _, [] => []
  | seen, x :: xs =>
    if x ∈ seen then uniqueFirstAux seen xs
    else x :: uniqueFirstAux (x :: seen) xs

/-- `Array.from(new Set(xs))`: the distinct elements of `xs`, first
occurrences first. -/
def uniqueFirst (xs : List String) : List String :=
  uniqueFirstAux [] xs

/-- Row of the `questions` table (columns used by the embedded code). -/
structure Question where
  id : String
  quiz_id : String
  question_index : Int
  answer_index : Int
  deriving DecidableEq, Repr

/-- Row of the `options` table (columns used by the embedded code). -/
structure OptionRow where
  id : String
  question_id : String
  option_index : Int
  deriving DecidableEq, Repr

/-- One `{questionId, optionId}` pair of a parsed request body. -/
structure SelectedOptionIn where
  questionId : String
  optionId : String
  deriving DecidableEq, Repr

/-- Row of the `selected_options` table (columns used by the embedded code). -/
structure SelectedOptionRow where
  quiz_session_id : String
  question_id : String
  option_id : String
  deriving DecidableEq, Repr

/-- Row of the `quiz_sessions` table (columns used by the embedded code);
`score` and `total_questions` are nullable. -/
structure QuizSession where
  id : String
  quiz_id : String
  user_id : String
  score : Option Int
  total_questions : Option Int
  deriving DecidableEq, Repr

/-- The relational store the endpoint and the views read and write. -/
structure Store where
  sessions : List QuizSession
  questions : List Question
  options : List OptionRow
  selected : List SelectedOptionRow
  deriving DecidableEq, Repr

/-- One failure flag per fallible store operation of the submission endpoint,
in source order.  A set flag makes that operation report an error without
mutating anything. -/
structure Failures where
  sessionQuery : Bool
  questionsQuery : Bool
  optionsQuery : Bool
  deleteSelected : Bool
  insertSelected : Bool
  scoreReset : Bool
  scoreUpdate : Bool
  deriving DecidableEq, Repr

/-- The failure-free run of the endpoint. -/
def noFailures : Failures := ⟨false, false, false, false, false, false, false⟩

/-- Parsed request body: either the JSON/schema stage rejected it, or it
yielded a list of `{questionId, optionId}` pairs. -/
inductive RequestBody where
  | malformed
  | valid (selectedOptions : List SelectedOptionIn)
  deriving DecidableEq, Repr

/-- Responses of the submission endpoint. -/
inductive PostResponse where
  | ok (selectedOptions : List SelectedOptionRow)
  | badRequest (error : String)
  | unauthorized (error : String)
  | notFound (error : String)
  | serverError (error : String)
  deriving DecidableEq, Repr

/-- HTTP status code of a response. -/
def PostResponse.status : PostResponse → Nat
  | .ok _ => 200
  | .badRequest _ => 400
  | .unauthorized _ => 401
  | .notFound _ => 404
  | .serverError _ => 500

/-- Lines 163–183 of the route: build `questionAnswerMap` and
`optionIndexMap` from the fetched rows and fold over `selectedOptions`,
counting a pair exactly when both lookups return a number and the numbers are
equal. -/
def computeScore (questions : List Question) (options : List OptionRow)
    (selectedOptions : List SelectedOptionIn) : Int :=
  let questionAnswerMap := questions.map fun question => (question.id, question.answer_index)
  let optionIndexMap := options.map fun option => (option.id, option.option_index)
  selectedOptions.foldl
    (fun score selectedOption =>
      match jsMapGet questionAnswerMap selectedOption.questionId,
          jsMapGet optionIndexMap selectedOption.optionId with
      | some answerIndex, some selectedOptionIndex =>
        if answerIndex = selectedOptionIndex then score + 1 else score
      | none, _ => score
      | some _, none => score)
    0

/-- Lines 101–184 of the route: the `uniqueQuestionIds.length > 0` block that
validates the referenced questions and options and computes the score, or
returns an early error response.  `computedScore` stays `0` for an empty
submission. -/
def validateAndScore (s : Store) (quizSession : QuizSession)
    (selectedOptions : List SelectedOptionIn) (uniqueQuestionIds : List String)
    (f : Failures) : Except PostResponse Int :=
  if uniqueQuestionIds.length > 0 then
    if f.questionsQuery then
      .error (.serverError "Failed to validate questions.")
    else
      let questions := s.questions.filter fun question =>
        decide (question.quiz_id = quizSession.quiz_id ∧ question.id ∈ uniqueQuestionIds)
      if questions.length ≠ uniqueQuestionIds.length then
        .error (.badRequest "One or more questions do not belong to this quiz session.")
      else
        let uniqueOptionIds := uniqueFirst (selectedOptions.map fun so => so.optionId)
        if f.optionsQuery then
          .error (.serverError "Failed to validate options.")
        else
          let options := s.options.filter fun option =>
            decide (option.id ∈ uniqueOptionIds ∧ option.question_id ∈ uniqueQuestionIds)
          if options.length ≠ uniqueOptionIds.length then
            .error (.badRequest "One or more options do not match the provided questions.")
          else
            let optionQuestionMap := options.map fun option => (option.id, option.question_id)
            if selectedOptions.any fun so =>
                decide (jsMapGet optionQuestionMap so.optionId ≠ some so.questionId) then
              .error (.badRequest "One or more options do not belong to their provided question.")
            else
              .ok (computeScore questions options selectedOptions)
  else
    .ok 0

/-- The `POST` handler of
`src/app/api/quiz_sessions/[sessionId]/selected_options/route.ts`, as a
function from the request (route parameter, parsed body, verified caller
identity), the failure flags and the prior store to the response and the
resulting store.  The three mutations (delete, insert, score update) are
sequential independent statements: an operation that fails leaves the
mutations already performed in place. -/
def POST (sessionId : String) (body : RequestBody) (auth : Option String)
    (f : Failures) (s : Store) : PostResponse × Store :=
  if sessionId = "" then
    (.badRequest "Missing session ID in route parameters.", s)
  else
    match body with
    | .malformed => (.badRequest "Invalid JSON body.", s)
    | .valid selectedOptions =>
      let questionIds := selectedOptions.map fun so => so.questionId
      let uniqueQuestionIds := uniqueFirst questionIds
      if uniqueQuestionIds.length ≠ questionIds.length then
        (.badRequest "Each question can only have one selected option.", s)
      else
        match auth with
        | none => (.unauthorized "Unauthorized.", s)
        | some userId =>
          if f.sessionQuery then
            (.serverError "Failed to verify quiz session.", s)
          else
            match s.sessions.find? fun ss => decide (ss.id = sessionId ∧ ss.user_id = userId) with
            | none => (.notFound "Quiz session not found.", s)
            | some quizSession =>
              match validateAndScore s quizSession selectedOptions uniqueQuestionIds f with
              | .error response => (response, s)
              | .ok computedScore =>
                if f.deleteSelected then
                  (.serverError "Failed to reset selected options for this session.", s)
                else
                  let s1 : Store :=
                    { s with selected := s.selected.filter fun row =>
                        decide (¬ row.quiz_session_id = quizSession.id) }
                  if selectedOptions.length = 0 then
                    if f.scoreReset then
                      (.serverError "Failed to reset quiz session score.", s1)
                    else
                      let s2 : Store :=
                        { s1 with sessions := s1.sessions.map fun ss =>
                            if ss.id = quizSession.id then { ss with score := none } else ss }
                      (.ok [], s2)
                  else
                    let rowsToInsert := selectedOptions.map fun so =>
                      SelectedOptionRow.mk quizSession.id so.questionId so.optionId
                    if f.insertSelected then
                      (.serverError "Failed to save selected options.", s1)
                    else
                      let s2 : Store := { s1 with selected := s1.selected ++ rowsToInsert }
                      let sessionTotalQuestions : Int :=
                        match quizSession.total_questions with
                        | some t => t
                        | none => (uniqueQuestionIds.length : Int)
                      if f.scoreUpdate then
                        (.serverError "Failed to update quiz session score.", s2)
                      else
                        let s3 : Store :=
                          { s2 with sessions := s2.sessions.map fun ss =>
                              if ss.id = quizSession.id then
                                { ss with
                                  score := some computedScore,
                                  total_questions := some sessionTotalQuestions }
                              else ss }
                        (.ok rowsToInsert, s3)

/-- The `{score, totalQuestions}` fallback record of the two listing views. -/
structure FallbackSessionScore where
  score : Int
  totalQuestions : Int
  deriving DecidableEq, Repr

/-- Lines 127–154 of `src/unnamed/part_005` (`QuizSessionsContent`): the
per-session body of the fallback loop.  It declines (returns `none`, leaving
the session without a fallback entry) unless the persisted `total_questions`
is a number (`some`; all model numbers are finite), positive, and equal to
the number of raw selected-answer rows of the session; otherwise it counts
the rows whose two lookups return equal numbers. -/
def reconcileSession (questionAnswerById optionIndexById : List (String × Int))
    (rows : List SelectedOptionRow) (totalQuestions : Option Int) :
    Option FallbackSessionScore :=
  match totalQuestions with
  | none => none
  | some t =>
    if t ≤ 0 ∨ (rows.length : Int) ≠ t then none
    else
      some
        ⟨rows.foldl
          (fun accumulator row =>
            match jsMapGet questionAnswerById row.question_id,
                jsMapGet optionIndexById row.option_id with
            | some answerIndex, some selectedOptionIndex =>
              if answerIndex = selectedOptionIndex then accumulator + 1 else accumulator
            | none, _ => accumulator
            | some _, none => accumulator)
          0, t⟩

/-- Lines 115–142 of `src/unnamed/part_007` (`QuizzesContent`): the identical
per-session fallback body duplicated in the quizzes listing view. -/
def reconcileSessionQuizzes (questionAnswerById optionIndexById : List (String × Int))
    (rows : List SelectedOptionRow) (totalQuestions : Option Int) :
    Option FallbackSessionScore :=
  match totalQuestions with
  | none => none
  | some t =>
    if t ≤ 0 ∨ (rows.length : Int) ≠ t then none
    else
      some
        ⟨rows.foldl
          (fun accumulator row =>
            match jsMapGet questionAnswerById row.question_id,
                jsMapGet optionIndexById row.option_id with
            | some answerIndex, some selectedOptionIndex =>
              if answerIndex = selectedOptionIndex then accumulator + 1 else accumulator
            | none, _ => accumulator
            | some _, none => accumulator)
          0, t⟩

/-- What the listing views print in the score line of one session. -/
inductive ScoreDisplay where
  | graded (score total : Int)
  | fallback (score total : Int)
  | notGraded
  deriving DecidableEq, Repr

/-- Lines 182–189 of `src/unnamed/part_005` (same shape at lines 184–191 of
`src/unnamed/part_007`): persisted score and total are shown only when both
are non-null; otherwise the fallback entry, if any; otherwise the
"Not graded yet" label. -/
def sessionScoreDisplay (session : QuizSession)
    (fallbackScore : Option FallbackSessionScore) : ScoreDisplay :=
  match session.score, session.total_questions with
  | some sc, some tq => .graded sc tq
  | some _, none =>
    match fallbackScore with
    | some fb => .fallback fb.score fb.totalQuestions
    | none => .notGraded
  | none, _ =>
    match fallbackScore with
    | some fb => .fallback fb.score fb.totalQuestions
    | none => .notGraded

/-- The failure-free read path of `QuizSessionsContent`
(`src/unnamed/part_005`): the caller's sessions with the score display of
each.  The source groups the fetched rows by `quiz_session_id` into a map and
reads each session's group back, which equals filtering the fetched rows by
that session's id in order; the `created_at` ordering of the rendered list is
presentation-only and not modelled. -/
def quizSessionsListing (s : Store) (userId : String) :
    List (QuizSession × ScoreDisplay) :=
  let sessions := s.sessions.filter fun ss => decide (ss.user_id = userId)
  let sessionsMissingScore := sessions.filter fun ss => decide (ss.score = none)
  let missingIds : List String := sessionsMissingScore.map fun ss => ss.id
  let selectedOptions := s.selected.filter fun row => decide (row.quiz_session_id ∈ missingIds)
  let questionIds := uniqueFirst (selectedOptions.map fun row => row.question_id)
  let optionIds := uniqueFirst (selectedOptions.map fun row => row.option_id)
  let questionsData := s.questions.filter fun question => decide (question.id ∈ questionIds)
  let optionsData := s.options.filter fun option => decide (option.id ∈ optionIds)
  let questionAnswerById := questionsData.map fun question => (question.id, question.answer_index)
  let optionIndexById := optionsData.map fun option => (option.id, option.option_index)
  sessions.map fun session =>
    let fallbackScore :=
      if session.score = none then
        reconcileSession questionAnswerById optionIndexById
          (selectedOptions.filter fun row => decide (row.quiz_session_id = session.id))
          session.total_questions
      else none
    (session, sessionScoreDisplay session fallbackScore)

/-- One option of `QuizQuestionForPlayer` in `src/unnamed/part_004` (the
fields the score logic reads). -/
structure PlayerOption where
  id : String
  option_index : Int
  deriving DecidableEq, Repr

/-- `QuizQuestionForPlayer` of `src/unnamed/part_004` (the fields the score
logic reads). -/
structure QuizQuestionForPlayer where
  id : String
  question_index : Int
  answer_index : Int
  options : List PlayerOption
  deriving DecidableEq, Repr

/-- `buildQuizQuestions` of `src/unnamed/part_004`: group the options by
question (grouping by g preserves order, hence equals a filter), sort each
group by `option_index`, and sort the questions by `question_index`.  The
stable JavaScript `Array.prototype.sort` with an `a.x - b.x` comparator is
modelled by the stable `List.insertionSort`. -/
def buildQuizQuestions (questions : List Question) (options : List OptionRow) :
    List QuizQuestionForPlayer :=
  (questions.map fun question =>
    QuizQuestionForPlayer.mk question.id question.question_index question.answer_index
      (((options.filter fun option => decide (option.question_id = question.id)).map
        fun option => PlayerOption.mk option.id option.option_index).insertionSort
        fun a b => a.option_index ≤ b.option_index)).insertionSort
    fun a b => a.question_index ≤ b.question_index

/-- Lines 100–121 of `src/unnamed/part_004` (`QuizSessionResult`): the score
shown by the detail result view — the number of questions whose selected
option exists, whose correct option exists, and whose two option records
coincide.  The persisted session score is not an input. -/
def quizSessionResultScore (questions : List QuizQuestionForPlayer)
    (selectedOptionByQuestionId : List (String × String)) : Nat :=
  (questions.map fun question =>
    let selectedOption := question.options.find? fun option =>
      decide (jsMapGet selectedOptionByQuestionId question.id = some option.id)
    let correctOption := question.options.find? fun option =>
      decide (option.option_index = question.answer_index)
    match selectedOption, correctOption with
    | some so, some co => decide (so.id = co.id)
    | none, _ => false
    | some _, none => false).countP fun isCorrect => isCorrect

/-- The failure-free read path of `QuizSessionContent`
(`src/unnamed/part_004`): `some score` when the result view is rendered (a
selection exists for every question of the quiz), `none` when the player view
or an empty/not-found page is rendered instead.  The size of the JavaScript
map of selections is the number of its distinct keys. -/
def quizSessionDetailScore (s : Store) (id userId : String) : Option Nat :=
  match s.sessions.find? fun ss => decide (ss.id = id ∧ ss.user_id = userId) with
  | none => none
  | some quizSession =>
    let questions :=
      (s.questions.filter fun question =>
        decide (question.quiz_id = quizSession.quiz_id)).insertionSort
        fun a b => a.question_index ≤ b.question_index
    if questions.length = 0 then none
    else
      let questionIds : List String := questions.map fun question => question.id
      let optionsData :=
        (s.options.filter fun option =>
          decide (option.question_id ∈ questionIds)).insertionSort
          fun a b => a.option_index ≤ b.option_index
      let selectedRows := s.selected.filter fun row =>
        decide (row.quiz_session_id = quizSession.id)
      let selectedOptionByQuestionId := selectedRows.map fun row =>
        (row.question_id, row.option_id)
      let quizQuestions := buildQuizQuestions questions optionsData
      if (uniqueFirst (selectedRows.map fun row => row.question_id)).length
          = quizQuestions.length ∧ quizQuestions.length > 0 then
        some (quizSessionResultScore quizQuestions selectedOptionByQuestionId)
      else
        none

/-- The authoritative answer index for a question id: the `answer_index` of
the store's question with that id, if any. -/
def answerIndexOf (s : Store) (questionId : String) : Option Int :=
  (s.questions.find? fun question => decide (question.id = questionId)).map
    fun question => question.answer_index

/-- The authoritative option position for an option id: the `option_index` of
the store's option with that id, if any. -/
def optionIndexOf (s : Store) (optionId : String) : Option Int :=
  (s.options.find? fun option => decide (option.id = optionId)).map
    fun option => option.option_index

/-- The matching rule of the specification, read over the authoritative
store: a selection is correct when the chosen option's position equals the
referenced question's `answer_index`. -/
def isCorrectSelection (s : Store) (so : SelectedOptionIn) : Bool :=
  match answerIndexOf s so.questionId, optionIndexOf s so.optionId with
  | some answerIndex, some position => decide (answerIndex = position)
  | none, _ => false
  | some _, none => false

/-- The specification's score: the number of selections that are correct
under the authoritative store. -/
def correctCount (s : Store) (sel : List SelectedOptionIn) : Nat :=
  sel.countP (isCorrectSelection s)

/-! ### Concrete fixtures

The scenario of the specification: a quiz `qz` with three questions of four
options each and answer g `[0, 2, 1]`, and the session stores used as
concrete inputs by the verification below. -/

/-- The three questions of the scenario quiz. -/
def exQuestions : List Question :=
  [⟨"q1", "qz", 1, 0⟩, ⟨"q2", "qz", 2, 2⟩, ⟨"q3", "qz", 3, 1⟩]

/-- Four options per question, positions 0–3. -/
def exOptions : List OptionRow :=
  [⟨"o1_0", "q1", 0⟩, ⟨"o1_1", "q1", 1⟩, ⟨"o1_2", "q1", 2⟩, ⟨"o1_3", "q1", 3⟩,
   ⟨"o2_0", "q2", 0⟩, ⟨"o2_1", "q2", 1⟩, ⟨"o2_2", "q2", 2⟩, ⟨"o2_3", "q2", 3⟩,
   ⟨"o3_0", "q3", 0⟩, ⟨"o3_1", "q3", 1⟩, ⟨"o3_2", "q3", 2⟩, ⟨"o3_3", "q3", 3⟩]

/-- A fresh, ungraded attempt of user `u1` on the scenario quiz. -/
def exSession : QuizSession := ⟨"s1", "qz", "u1", none, some 3⟩

/-- Store with the fresh attempt and no selections. -/
def exStore : Store := ⟨[exSession], exQuestions, exOptions, []⟩

/-- Scenario 1 payload: correct, wrong, wrong — score 2. -/
def exPayload : List SelectedOptionIn :=
  [⟨"q1", "o1_0"⟩, ⟨"q2", "o2_2"⟩, ⟨"q3", "o3_3"⟩]

/-- The store after a successful failure-free submission of `exPayload`. -/
def exStoreSubmitted : Store :=
  (POST "s1" (.valid exPayload) (some "u1") noFailures exStore).2

/-- A graded attempt (score 2 of 3) used as the prior state of failure runs. -/
def exGradedSession : QuizSession := ⟨"s1", "qz", "u1", some 2, some 3⟩

/-- Store holding the graded attempt together with its three stored
selected-answer rows. -/
def exStoreGraded : Store :=
  ⟨[exGradedSession], exQuestions, exOptions,
   [⟨"s1", "q1", "o1_0"⟩, ⟨"s1", "q2", "o2_2"⟩, ⟨"s1", "q3", "o3_3"⟩]⟩

/-- Failure injection: the bulk insert of new rows fails. -/
def exFailInsert : Failures := { noFailures with insertSelected := true }

/-- A single-question resubmission payload (a partial save). -/
def exPayloadPartial : List SelectedOptionIn := [⟨"q1", "o1_1"⟩]

/-- A session graded with a score but a null `total_questions` snapshot. -/
def exGradedNoTotal : QuizSession := ⟨"s2", "qz", "u1", some 1, none⟩

/-- Listing-view store around `exGradedNoTotal`. -/
def exStoreListing : Store := ⟨[exGradedNoTotal], exQuestions, exOptions, []⟩

/-- A graded one-question attempt whose stored selection is the wrong
option. -/
def exDetailSession : QuizSession := ⟨"s3", "qzd", "u1", some 1, some 1⟩

/-- Detail-view store around `exDetailSession`: one question `qd` with
options `oa` (position 0, correct) and `ob` (position 1), and the stored
selection `ob`. -/
def exDetailStore : Store :=
  ⟨[exDetailSession], [⟨"qd", "qzd", 1, 0⟩],
   [⟨"oa", "qd", 0⟩, ⟨"ob", "qd", 1⟩], [⟨"s3", "qd", "ob"⟩]⟩

/-! ### Helper lemmas about the JavaScript collection primitives -/

theorem mem_uniqueFirstAux {x : String} {seen l : List String} :
    x ∈ uniqueFirstAux seen l ↔ x ∈ l ∧ x ∉ seen := by
  induction l generalizing seen with
  | nil => simp [uniqueFirstAux]
  | cons a l ih =>
    by_cases ha : a ∈ seen
    · rw [uniqueFirstAux, if_pos ha, ih]
      constructor
      · rintro ⟨hx, hs⟩
        exact ⟨List.mem_cons_of_mem a hx, hs⟩
      · rintro ⟨hx, hs⟩
        rcases List.mem_cons.mp hx with rfl | hx2
        · exact absurd ha hs
        · exact ⟨hx2, hs⟩
    · rw [uniqueFirstAux, if_neg ha]
      constructor
      · intro hx
        rcases List.mem_cons.mp hx with rfl | hx2
        · exact ⟨List.mem_cons_self x l, ha⟩
        · obtain ⟨hl, hs⟩ := ih.mp hx2
          exact ⟨List.mem_cons_of_mem a hl, fun hm => hs (List.mem_cons_of_mem a hm)⟩
      · rintro ⟨hx, hs⟩
        rcases List.mem_cons.mp hx with rfl | hl
        · exact List.mem_cons_self x _
        · by_cases hxa : x = a
          · exact hxa ▸ List.mem_cons_self x _
          · refine List.mem_cons_of_mem a (ih.mpr ⟨hl, fun hm => ?_⟩)
            rcases List.mem_cons.mp hm with h1 | h2
            · exact hxa h1
            · exact hs h2

theorem nodup_uniqueFirstAux {seen l : List String} :
    (uniqueFirstAux seen l).Nodup := by
  induction l generalizing seen with
  | nil => simp [uniqueFirstAux]
  | cons a l ih =>
    by_cases ha : a ∈ seen
    · simpa [uniqueFirstAux, ha] using ih
    · simp only [uniqueFirstAux, if_neg ha, List.nodup_cons]
      refine ⟨fun hmem => ?_, ih⟩
      exact (mem_uniqueFirstAux.mp hmem).2 (List.mem_cons_self a seen)

theorem mem_uniqueFirst {x : String} {l : List String} :
    x ∈ uniqueFirst l ↔ x ∈ l := by
  simp [uniqueFirst, mem_uniqueFirstAux]

theorem nodup_uniqueFirst {l : List String} : (uniqueFirst l).Nodup :=
  nodup_uniqueFirstAux

theorem jsMapGet_eq_none_iff {β : Type} {l : List (String × β)} {k : String} :
    jsMapGet l k = none ↔ k ∉ l.map Prod.fst := by
  induction l with
  | nil => simp [jsMapGet]
  | cons e rest ih =>
    simp only [jsMapGet, List.map_cons, List.mem_cons]
    cases h : jsMapGet rest k with
    | some v =>
      have hk : k ∈ rest.map Prod.fst := by
        by_contra hk
        rw [ih.mpr hk] at h
        exact Option.noConfusion h
      simp [hk]
    | none =>
      have hk : k ∉ rest.map Prod.fst := ih.mp h
      by_cases he : e.1 = k
      · simp [he, hk]
      · simp [he, hk, Ne.symm he]

theorem jsMapGet_eq_some_of_mem {β : Type} {l : List (String × β)} {k : String}
    {v : β} (hnd : (l.map Prod.fst).Nodup) (hm : (k, v) ∈ l) :
    jsMapGet l k = some v := by
  induction l with
  | nil => cases hm
  | cons e rest ih =>
    simp only [List.map_cons, List.nodup_cons] at hnd
    rcases List.mem_cons.mp hm with he | hrest
    · subst he
      have hnone : jsMapGet rest k = none :=
        jsMapGet_eq_none_iff.mpr (by simpa using hnd.1)
      simp [jsMapGet, hnone]
    · have := ih hnd.2 hrest
      simp [jsMapGet, this]

theorem foldl_count_int {α : Type} (p : α → Bool) (l : List α) (i : Int) :
    l.foldl (fun acc a => if p a then acc + 1 else acc) i = i + l.countP p := by
  induction l generalizing i with
  | nil => simp
  | cons a l ih =>
    simp only [List.foldl_cons, List.countP_cons]
    by_cases h : p a
    · simp only [h, if_true, ih, Nat.cast_add, Nat.cast_one]
      ring
    · simp [h, ih]

/-- The per-pair matching test shared (up to transcription) by the write-time
score fold and the two read-time reconciliation folds: both lookups return a
number and the numbers coincide. -/
def scoreHit (questionAnswerMap optionIndexMap : List (String × Int))
    (questionId optionId : String) : Bool :=
  match jsMapGet questionAnswerMap questionId, jsMapGet optionIndexMap optionId with
  | some answerIndex, some selectedOptionIndex => decide (answerIndex = selectedOptionIndex)
  | none, _ => false
  | some _, none => false

theorem computeScore_eq_countP (questions : List Question) (options : List OptionRow)
    (sel : List SelectedOptionIn) :
    computeScore questions options sel =
      (sel.countP fun so =>
        scoreHit (questions.map fun q => (q.id, q.answer_index))
          (options.map fun o => (o.id, o.option_index)) so.questionId so.optionId : Int) := by
  unfold computeScore
  rw [List.foldl_ext _
    (fun (score : Int) so =>
      if scoreHit (questions.map fun q => (q.id, q.answer_index))
          (options.map fun o => (o.id, o.option_index)) so.questionId so.optionId
        then score + 1 else score)]
  · rw [foldl_count_int]
    simp
  · intro acc so _
    rcases h1 : jsMapGet (questions.map fun question => (question.id, question.answer_index))
        so.questionId with _ | a <;>
      rcases h2 : jsMapGet (options.map fun option => (option.id, option.option_index))
          so.optionId with _ | b <;>
        simp [scoreHit, h1, h2]

theorem reconFold_eq_countP (questionAnswerById optionIndexById : List (String × Int))
    (rows : List SelectedOptionRow) :
    rows.foldl
        (fun accumulator row =>
          match jsMapGet questionAnswerById row.question_id,
              jsMapGet optionIndexById row.option_id with
          | some answerIndex, some selectedOptionIndex =>
            if answerIndex = selectedOptionIndex then accumulator + 1 else accumulator
          | none, _ => accumulator
          | some _, none => accumulator)
        (0 : Int) =
      (rows.countP fun row =>
        scoreHit questionAnswerById optionIndexById row.question_id row.option_id : Int) := by
  rw [List.foldl_ext _
    (fun (accumulator : Int) row =>
      if scoreHit questionAnswerById optionIndexById row.question_id row.option_id
        then accumulator + 1 else accumulator)]
  · rw [foldl_count_int]
    simp
  · intro acc row _
    rcases h1 : jsMapGet questionAnswerById row.question_id with _ | a <;>
      rcases h2 : jsMapGet optionIndexById row.option_id with _ | b <;>
        simp [scoreHit, h1, h2]

/-! ### Pigeonhole lemmas for the count-based existence checks

The endpoint checks referential validity by comparing the length of a
filtered (g-unique) row set against the length of the deduplicated id list;
these lemmas turn such a length equality into elementwise coverage and back. -/

theorem cover_of_filter_length {R : Type} {L : List R} {g : R → String}
    {p : R → Bool} {U : List String} (hnd : (L.map g).Nodup) (hU : U.Nodup)
    (hsub : ∀ r ∈ L.filter p, g r ∈ U)
    (hlen : (L.filter p).length = U.length) :
    ∀ u ∈ U, ∃ r, r ∈ L.filter p ∧ g r = u := by
  have hFnd : ((L.filter p).map g).Nodup :=
    List.Nodup.sublist ((List.filter_sublist L).map g) hnd
  have hsub2 : ((L.filter p).map g).toFinset ⊆ U.toFinset := by
    intro u hu
    rw [List.mem_toFinset] at hu ⊢
    obtain ⟨r, hr, rfl⟩ := List.mem_map.mp hu
    exact hsub r hr
  have hcard : U.toFinset.card ≤ ((L.filter p).map g).toFinset.card := by
    rw [List.toFinset_card_of_nodup hFnd, List.toFinset_card_of_nodup hU,
      List.length_map, hlen]
  have heq := Finset.eq_of_subset_of_card_le hsub2 hcard
  intro u hu
  have : u ∈ (L.filter p).map g := by
    rw [← List.mem_toFinset, heq, List.mem_toFinset]
    exact hu
  obtain ⟨r, hr, hk⟩ := List.mem_map.mp this
  exact ⟨r, hr, hk⟩

theorem filter_length_lt_of_missing {R : Type} {L : List R} {g : R → String}
    {p : R → Bool} {U : List String} {u0 : String}
    (hnd : (L.map g).Nodup) (hU : U.Nodup)
    (hsub : ∀ r ∈ L.filter p, g r ∈ U)
    (hu0 : u0 ∈ U) (hmiss : ∀ r ∈ L.filter p, g r ≠ u0) :
    (L.filter p).length < U.length := by
  have hFnd : ((L.filter p).map g).Nodup :=
    List.Nodup.sublist ((List.filter_sublist L).map g) hnd
  have hsub2 : ((L.filter p).map g).toFinset ⊆ U.toFinset := by
    intro u hu
    rw [List.mem_toFinset] at hu ⊢
    obtain ⟨r, hr, rfl⟩ := List.mem_map.mp hu
    exact hsub r hr
  have hss : ((L.filter p).map g).toFinset ⊂ U.toFinset := by
    refine ⟨hsub2, fun hsup => ?_⟩
    have : u0 ∈ ((L.filter p).map g).toFinset := hsup (List.mem_toFinset.mpr hu0)
    obtain ⟨r, hr, hk⟩ := List.mem_map.mp (List.mem_toFinset.mp this)
    exact hmiss r hr hk
  have := Finset.card_lt_card hss
  rwa [List.toFinset_card_of_nodup hFnd, List.toFinset_card_of_nodup hU,
    List.length_map] at this

theorem filter_length_of_cover {R : Type} {L : List R} {g : R → String}
    {p : R → Bool} {U : List String} (hnd : (L.map g).Nodup) (hU : U.Nodup)
    (hsub : ∀ r ∈ L.filter p, g r ∈ U)
    (hcov : ∀ u ∈ U, ∃ r, r ∈ L.filter p ∧ g r = u) :
    (L.filter p).length = U.length := by
  have hFnd : ((L.filter p).map g).Nodup :=
    List.Nodup.sublist ((List.filter_sublist L).map g) hnd
  have hsub2 : ((L.filter p).map g).toFinset ⊆ U.toFinset := by
    intro u hu
    rw [List.mem_toFinset] at hu ⊢
    obtain ⟨r, hr, rfl⟩ := List.mem_map.mp hu
    exact hsub r hr
  have hsup : U.toFinset ⊆ ((L.filter p).map g).toFinset := by
    intro u hu
    rw [List.mem_toFinset] at hu ⊢
    obtain ⟨r, hr, hk⟩ := hcov u hu
    exact List.mem_map.mpr ⟨r, hr, hk⟩
  have heq := Finset.Subset.antisymm hsub2 hsup
  have := congrArg Finset.card heq
  rwa [List.toFinset_card_of_nodup hFnd, List.toFinset_card_of_nodup hU,
    List.length_map] at this

theorem find?_eq_some_of_nodup {R : Type} {L : List R} {g : R → String}
    {k : String} {r : R} (hnd : (L.map g).Nodup) (hr : r ∈ L) (hk : g r = k) :
    L.find? (fun x => decide (g x = k)) = some r := by
  induction L with
  | nil => cases hr
  | cons a t ih =>
    simp only [List.map_cons, List.nodup_cons] at hnd
    rcases List.mem_cons.mp hr with rfl | hrt
    · rw [List.find?_cons_of_pos]
      simp [hk]
    · have hne : ¬ g a = k := by
        intro h
        exact hnd.1 (h ▸ hk ▸ List.mem_map_of_mem g hrt)
      rw [List.find?_cons_of_neg]
      · exact ih hnd.2 hrt
      · simp [hne]

theorem find?_map_of_pred_invariant {α : Type} (l : List α) (g : α → α)
    (p : α → Bool) (hp : ∀ a, p (g a) = p a) :
    (l.map g).find? p = (l.find? p).map g := by
  induction l with
  | nil => simp
  | cons a t ih =>
    by_cases ha : p a
    · rw [List.map_cons, List.find?_cons_of_pos _ (by rw [hp]; exact ha),
        List.find?_cons_of_pos _ ha]
      simp
    · rw [List.map_cons, List.find?_cons_of_neg _ (by rw [hp]; exact ha),
        List.find?_cons_of_neg _ ha]
      exact ih

/-- `validateAndScore` reads only the question and option tables of the store
and the `quiz_id` of the session record. -/
theorem validateAndScore_congr {s1 s2 : Store} {a b : QuizSession}
    (hq : s1.questions = s2.questions) (ho : s1.options = s2.options)
    (hz : a.quiz_id = b.quiz_id) (sel : List SelectedOptionIn)
    (U : List String) (f : Failures) :
    validateAndScore s1 a sel U f = validateAndScore s2 b sel U f := by
  unfold validateAndScore
  rw [hq, ho, hz]

theorem length_uniqueFirst_pos {sel : List SelectedOptionIn} (hne : sel ≠ []) :
    0 < (uniqueFirst (sel.map fun so => so.questionId)).length := by
  match sel, hne with
  | so :: rest, _ =>
    have hmem : so.questionId ∈ uniqueFirst ((so :: rest).map fun x => x.questionId) :=
      mem_uniqueFirst.mpr (by simp)
    exact List.length_pos.mpr (List.ne_nil_of_mem hmem)

/-- If the validation block accepts a non-empty submission against a store
whose question ids and option ids are unique (they are primary keys), the
score it returns is the specification's count: the number of selections whose
chosen option's authoritative position equals the referenced question's
authoritative `answer_index`. -/
theorem validateAndScore_ok_score {s : Store} {qs : QuizSession}
    {sel : List SelectedOptionIn} {f : Failures} {k : Int}
    (hndq : (s.questions.map fun q => q.id).Nodup)
    (hndo : (s.options.map fun o => o.id).Nodup)
    (hne : sel ≠ [])
    (hval : validateAndScore s qs sel (uniqueFirst (sel.map fun so => so.questionId)) f
      = .ok k) :
    k = (correctCount s sel : Int) := by
  have hUpos := length_uniqueFirst_pos hne
  simp only [validateAndScore] at hval
  rw [if_pos hUpos] at hval
  split at hval
  · exact Except.noConfusion hval
  rename_i hfq
  split at hval
  · exact Except.noConfusion hval
  rename_i hlenq
  split at hval
  · exact Except.noConfusion hval
  rename_i hfo
  split at hval
  · exact Except.noConfusion hval
  rename_i hleno
  split at hval
  · exact Except.noConfusion hval
  rename_i hmis
  injection hval with hk
  subst hk
  rw [computeScore_eq_countP]
  unfold correctCount
  congr 1
  apply List.countP_congr
  intro so hso
  have hqid : so.questionId ∈ uniqueFirst (sel.map fun x => x.questionId) :=
    mem_uniqueFirst.mpr (List.mem_map_of_mem _ hso)
  have hoid : so.optionId ∈ uniqueFirst (sel.map fun x => x.optionId) :=
    mem_uniqueFirst.mpr (List.mem_map_of_mem _ hso)
  have hlenq2 :
      (s.questions.filter fun q =>
        decide (q.quiz_id = qs.quiz_id ∧ q.id ∈ uniqueFirst (sel.map fun x => x.questionId))).length
        = (uniqueFirst (sel.map fun x => x.questionId)).length := not_ne_iff.mp hlenq
  have hleno2 :
      (s.options.filter fun o =>
        decide (o.id ∈ uniqueFirst (sel.map fun x => x.optionId) ∧
          o.question_id ∈ uniqueFirst (sel.map fun x => x.questionId))).length
        = (uniqueFirst (sel.map fun x => x.optionId)).length := not_ne_iff.mp hleno
  obtain ⟨q, hqF, hqid_eq⟩ :=
    cover_of_filter_length (g := fun q => q.id) hndq nodup_uniqueFirst
      (fun r hr => (of_decide_eq_true ((List.mem_filter.mp hr).2)).2)
      hlenq2 so.questionId hqid
  obtain ⟨o, hoF, hoid_eq⟩ :=
    cover_of_filter_length (g := fun o => o.id) hndo nodup_uniqueFirst
      (fun r hr => (of_decide_eq_true ((List.mem_filter.mp hr).2)).1)
      hleno2 so.optionId hoid
  have hq_auth : answerIndexOf s so.questionId = some q.answer_index := by
    unfold answerIndexOf
    rw [find?_eq_some_of_nodup (g := fun q => q.id) hndq (List.mem_of_mem_filter hqF) hqid_eq]
    rfl
  have ho_auth : optionIndexOf s so.optionId = some o.option_index := by
    unfold optionIndexOf
    rw [find?_eq_some_of_nodup (g := fun o => o.id) hndo (List.mem_of_mem_filter hoF) hoid_eq]
    rfl
  have hq_map :
      jsMapGet
        ((s.questions.filter fun q =>
          decide (q.quiz_id = qs.quiz_id ∧
            q.id ∈ uniqueFirst (sel.map fun x => x.questionId))).map
          fun q => (q.id, q.answer_index)) so.questionId = some q.answer_index := by
    apply jsMapGet_eq_some_of_mem
    · rw [List.map_map]
      exact List.Nodup.sublist ((List.filter_sublist _).map _) hndq
    · exact List.mem_map.mpr ⟨q, hqF, by rw [hqid_eq]⟩
  have ho_map :
      jsMapGet
        ((s.options.filter fun o =>
          decide (o.id ∈ uniqueFirst (sel.map fun x => x.optionId) ∧
            o.question_id ∈ uniqueFirst (sel.map fun x => x.questionId))).map
          fun o => (o.id, o.option_index)) so.optionId = some o.option_index := by
    apply jsMapGet_eq_some_of_mem
    · rw [List.map_map]
      exact List.Nodup.sublist ((List.filter_sublist _).map _) hndo
    · exact List.mem_map.mpr ⟨o, hoF, by rw [hoid_eq]⟩
  unfold scoreHit isCorrectSelection
  rw [hq_map, ho_map, hq_auth, ho_auth]

/-- Every error result of the validation block is a 400 or a 500 response. -/
theorem validateAndScore_error_status {s : Store} {qs : QuizSession}
    {sel : List SelectedOptionIn} {U : List String} {f : Failures}
    {r : PostResponse} (h : validateAndScore s qs sel U f = .error r) :
    r.status = 400 ∨ r.status = 500 := by
  simp only [validateAndScore] at h
  repeat' split at h
  all_goals
    first
      | exact Except.noConfusion h
      | (injection h with h1; subst h1; simp [PostResponse.status])

/-- C2: if a submission returns 200 with a non-empty validated answer list,
the score persisted on the session record equals the number of answers whose
chosen option's authoritative position equals the `answer_index` of the
question the answer references (question and option ids are unique in the
store, as primary keys). -/
theorem POST_ok_score_eq_correctCount {sid uid : String}
    {sel : List SelectedOptionIn} {f : Failures} {s : Store}
    {rows : List SelectedOptionRow} {s2 : Store}
    (hndq : (s.questions.map fun q => q.id).Nodup)
    (hndo : (s.options.map fun o => o.id).Nodup)
    (hne : sel ≠ [])
    (h : POST sid (.valid sel) (some uid) f s = (.ok rows, s2)) :
    ∀ ss ∈ s2.sessions, ss.id = sid → ss.score = some (correctCount s sel : Int) := by
  simp only [POST] at h
  split at h
  · exact absurd h (by simp)
  rename_i hsid
  split at h
  · exact absurd h (by simp)
  rename_i hdup
  split at h
  · exact absurd h (by simp)
  rename_i hfq
  split at h
  · exact absurd h (by simp)
  rename_i xfind quizSession hfind
  split at h
  · rename_i xval response hvalerr
    injection h with h1 h2
    subst h1
    rcases validateAndScore_error_status hvalerr with h4 | h4 <;>
      simp [PostResponse.status] at h4
  rename_i xval computedScore hval
  split at h
  · exact absurd h (by simp)
  rename_i hfd
  split at h
  · rename_i hlen0
    exact absurd (List.length_eq_zero.mp hlen0) hne
  rename_i hlen0
  split at h
  · exact absurd h (by simp)
  rename_i hfi
  split at h
  · exact absurd h (by simp)
  rename_i hfu
  injection h with h1 h2
  subst h2
  have hfp := List.find?_some hfind
  have hqsid : quizSession.id = sid ∧ quizSession.user_id = uid :=
    of_decide_eq_true hfp
  have hscore : computedScore = (correctCount s sel : Int) :=
    validateAndScore_ok_score hndq hndo hne hval
  intro ss hss hid
  obtain ⟨ss0, hss0, hmap⟩ := List.mem_map.mp hss
  by_cases hcase : ss0.id = quizSession.id
  · rw [if_pos hcase] at hmap
    subst hmap
    simp [hscore]
  · rw [if_neg hcase] at hmap
    subst hmap
    exact absurd (hid.trans hqsid.1.symm) hcase

/-- C7: a submission rejected with status 400 (malformed body, duplicate
question, foreign question, mismatched option) leaves the store exactly as it
was: nothing is deleted or inserted and the session record keeps its score
and `total_questions`. -/
theorem POST_badRequest_store_unchanged {sid : String} {body : RequestBody}
    {auth : Option String} {f : Failures} {s : Store} {resp : PostResponse}
    {s2 : Store} (h : POST sid body auth f s = (resp, s2))
    (hst : resp.status = 400) : s2 = s := by
  simp only [POST] at h
  repeat' split at h
  all_goals
    injection h with h1 h2
    subst h1
    subst h2
    first
      | rfl
      | simp [PostResponse.status] at hst

/-- Witness for C2: submitting the scenario payload to the fresh scenario
store persists score 2, the answer-g count. -/
theorem POST_ok_score_eq_correctCount_witness :
    QuizSession.mk "s1" "qz" "u1" (some 2) (some 3) ∈
        (POST "s1" (.valid exPayload) (some "u1") noFailures exStore).2.sessions ∧
      (QuizSession.mk "s1" "qz" "u1" (some 2) (some 3)).score =
        some (correctCount exStore exPayload : Int) := by
  refine ⟨by decide, ?_⟩
  exact POST_ok_score_eq_correctCount (by decide) (by decide) (by decide)
    (show POST "s1" (.valid exPayload) (some "u1") noFailures exStore =
        (.ok [⟨"s1", "q1", "o1_0"⟩, ⟨"s1", "q2", "o2_2"⟩, ⟨"s1", "q3", "o3_3"⟩],
         exStoreSubmitted) from rfl)
    (QuizSession.mk "s1" "qz" "u1" (some 2) (some 3)) (by decide) rfl

/-- Witness for C7: the duplicate-question submission is rejected with 400
and the graded store is returned unchanged. -/
theorem POST_badRequest_store_unchanged_witness :
    (POST "s1" (.valid [⟨"q1", "o1_0"⟩, ⟨"q1", "o1_1"⟩]) (some "u1") noFailures
        exStoreGraded).2 = exStoreGraded := by
  exact POST_badRequest_store_unchanged
    (show POST "s1" (.valid [⟨"q1", "o1_0"⟩, ⟨"q1", "o1_1"⟩]) (some "u1") noFailures
          exStoreGraded =
        (.badRequest "Each question can only have one selected option.",
         (POST "s1" (.valid [⟨"q1", "o1_0"⟩, ⟨"q1", "o1_1"⟩]) (some "u1") noFailures
           exStoreGraded).2) from rfl)
    rfl

/-- C3: whenever either read-time reconciler (sessions listing or quizzes
listing) produces a fallback score from the stored rows, the authoritative
answer g and the option positions, that score equals the score the
write-time submission path computes for the same selections — the two code
paths agree on the matching rule. -/
theorem reconciler_score_eq_computeScore :
    ∀ (questions : List Question) (options : List OptionRow)
      (rows : List SelectedOptionRow) (total : Option Int) (fb : FallbackSessionScore),
      (reconcileSession (questions.map fun q => (q.id, q.answer_index))
          (options.map fun o => (o.id, o.option_index)) rows total = some fb →
        fb.score = computeScore questions options
          (rows.map fun row => ⟨row.question_id, row.option_id⟩)) ∧
      (reconcileSessionQuizzes (questions.map fun q => (q.id, q.answer_index))
          (options.map fun o => (o.id, o.option_index)) rows total = some fb →
        fb.score = computeScore questions options
          (rows.map fun row => ⟨row.question_id, row.option_id⟩)) := by
  intro questions options rows total fb
  constructor <;>
    · intro h
      rcases total with _ | t
      · exact Option.noConfusion h
      simp only [reconcileSession, reconcileSessionQuizzes] at h
      split at h
      · exact Option.noConfusion h
      injection h with h1
      subst h1
      show rows.foldl _ 0 = _
      rw [reconFold_eq_countP, computeScore_eq_countP, List.countP_map]
      rfl

/-- Witness for C3: the reconciled score of the three scenario rows equals
the write-path score for the same selections. -/
theorem reconciler_score_eq_computeScore_witness :
    (FallbackSessionScore.mk 2 3).score =
      computeScore exQuestions exOptions
        (([⟨"s1", "q1", "o1_0"⟩, ⟨"s1", "q2", "o2_2"⟩,
           ⟨"s1", "q3", "o3_3"⟩] : List SelectedOptionRow).map
          fun row => ⟨row.question_id, row.option_id⟩) := by
  exact (reconciler_score_eq_computeScore exQuestions exOptions
    [⟨"s1", "q1", "o1_0"⟩, ⟨"s1", "q2", "o2_2"⟩, ⟨"s1", "q3", "o3_3"⟩]
    (some 3) (FallbackSessionScore.mk 2 3)).1 (by decide)

/-- C4: either reconciler yields a fallback score exactly when the persisted
`total_questions` is a positive number (all model numbers are finite) equal
to the number of raw stored selected-answer rows of the attempt; with a null,
zero or negative total, or a differing row count, the attempt stays
ungraded. -/
theorem reconcile_isSome_iff :
    ∀ (questionAnswerById optionIndexById : List (String × Int))
      (rows : List SelectedOptionRow) (total : Option Int),
      ((reconcileSession questionAnswerById optionIndexById rows total).isSome = true ↔
        ∃ t, total = some t ∧ 0 < t ∧ (rows.length : Int) = t) ∧
      ((reconcileSessionQuizzes questionAnswerById optionIndexById rows total).isSome = true ↔
        ∃ t, total = some t ∧ 0 < t ∧ (rows.length : Int) = t) := by
  intro questionAnswerById optionIndexById rows total
  constructor <;>
    · rcases total with _ | t
      · simp [reconcileSession, reconcileSessionQuizzes]
      simp only [reconcileSession, reconcileSessionQuizzes]
      split
      · rename_i hcond
        simp only [Option.isSome_none, Bool.false_eq_true, false_iff]
        rintro ⟨t2, ht2, hpos, hlen⟩
        injection ht2 with ht2
        subst ht2
        rcases hcond with hle | hne2
        · exact absurd hpos (not_lt.mpr hle)
        · exact hne2 hlen
      · rename_i hcond
        push_neg at hcond
        simp only [Option.isSome_some, true_iff]
        exact ⟨t, rfl, hcond.1, hcond.2⟩

/-- Counterexample for C9: an unauthenticated request whose body contains a
duplicated question reference is answered 400, not 401 — the body checks run
before the authentication check. -/
theorem unauthenticated_duplicate_gets_400 :
    (POST "s1" (.valid [⟨"q1", "o1_0"⟩, ⟨"q1", "o1_1"⟩]) none noFailures exStore).1 =
        .badRequest "Each question can only have one selected option." ∧
      (POST "s1" (.valid [⟨"q1", "o1_0"⟩, ⟨"q1", "o1_1"⟩]) none noFailures exStore).1.status
        = 400 := by
  decide

/-- C9 (amended): an unauthenticated submission is answered 401 provided the
route parameter is present and the parsed body passes the duplicate-question
check; a missing route parameter or a malformed body is answered 400 before
authentication is consulted. -/
theorem unauthenticated_post_401 {sid : String} {sel : List SelectedOptionIn}
    {f : Failures} {s : Store} (hsid : sid ≠ "")
    (hdup : (uniqueFirst (sel.map fun so => so.questionId)).length
      = (sel.map fun so => so.questionId).length) :
    POST sid (.valid sel) none f s = (.unauthorized "Unauthorized.", s) ∧
      (POST sid (.valid sel) none f s).1.status = 401 ∧
      POST sid .malformed none f s = (.badRequest "Invalid JSON body.", s) ∧
      POST "" (.valid sel) none f s
        = (.badRequest "Missing session ID in route parameters.", s) := by
  have h1 : POST sid (.valid sel) none f s = (.unauthorized "Unauthorized.", s) := by
    simp only [POST]
    rw [if_neg hsid, if_neg (not_ne_iff.mpr hdup)]
  refine ⟨h1, by rw [h1]; rfl, ?_, ?_⟩
  · simp only [POST]
    rw [if_neg hsid]
  · simp [POST]

/-- Witness for C9 (amended): the duplicate-free scenario payload without a
caller identity is answered 401. -/
theorem unauthenticated_post_401_witness :
    POST "s1" (.valid exPayload) none noFailures exStore
      = (.unauthorized "Unauthorized.", exStore) :=
  (unauthenticated_post_401 (by decide) (by decide)).1

/-- C1 (evaluation at the failing input): with the graded scenario store as
prior state, a resubmission whose bulk insert fails is answered 500, yet the
store is mutated — every prior selected-answer row of the attempt is already
deleted while the session keeps its stale score 2, exactly the
"missing answers alongside a score that was not recomputed" state the
specification rules out. -/
theorem insert_failure_leaves_partial_state :
    (POST "s1" (.valid exPayloadPartial) (some "u1") exFailInsert exStoreGraded).1
        = .serverError "Failed to save selected options." ∧
      (POST "s1" (.valid exPayloadPartial) (some "u1") exFailInsert exStoreGraded).1.status
        = 500 ∧
      (POST "s1" (.valid exPayloadPartial) (some "u1") exFailInsert exStoreGraded).2.selected
        = [] ∧
      exStoreGraded.selected ≠ [] ∧
      (POST "s1" (.valid exPayloadPartial) (some "u1") exFailInsert exStoreGraded).2.sessions
        = exStoreGraded.sessions ∧
      exGradedSession.score = some 2 ∧
      (POST "s1" (.valid exPayloadPartial) (some "u1") exFailInsert exStoreGraded).2
        ≠ exStoreGraded := by
  decide

/-- Counterexample for C5: the sessions listing shows "Not graded yet" for an
attempt whose persisted score is 1 (because its `total_questions` is null),
and the detail view shows a recomputed score 0 for an attempt whose persisted
score is 1 — neither view returns the persisted score of every graded
attempt, and the label is not reserved for null-score attempts. -/
theorem graded_attempt_views_counterexample :
    (quizSessionsListing exStoreListing "u1"
        = [(exGradedNoTotal, ScoreDisplay.notGraded)] ∧
      exGradedNoTotal.score = some 1) ∧
      (quizSessionDetailScore exDetailStore "s3" "u1" = some 0 ∧
        exDetailSession.score = some 1) := by
  decide

/-- Counterexample for C10: an answer referencing an option id that does not
exist at all is answered 400 with the message "One or more options do not
match the provided questions.", not the MismatchedOption message the claim
states. -/
theorem nonexistent_option_gets_match_message :
    (POST "s1" (.valid [⟨"q1", "oX"⟩]) (some "u1") noFailures exStore).1
        = .badRequest "One or more options do not match the provided questions." ∧
      (POST "s1" (.valid [⟨"q1", "oX"⟩]) (some "u1") noFailures exStore).1
        ≠ .badRequest "One or more options do not belong to their provided question." := by
  decide

/-- C10 (amended): with unique option ids, a passing question check and
failure-free validation queries, an answer whose option id has no option row
whose owning question is among the claimed questions — because the id does
not exist at all, or because every row with that id is owned by a question
outside the claimed set — is rejected 400 "One or more options do not match
the provided questions.", while an option that exists with its owner among
the claimed questions but different from the question it is claimed against
is rejected 400 "One or more options do not belong to their provided
question.". -/
theorem option_error_message_cases {s : Store} {qs : QuizSession}
    {sel : List SelectedOptionIn} {f : Failures}
    (hndo : (s.options.map fun o => o.id).Nodup)
    (hne : sel ≠ [])
    (hqlen : (s.questions.filter fun q =>
        decide (q.quiz_id = qs.quiz_id ∧
          q.id ∈ uniqueFirst (sel.map fun x => x.questionId))).length
      = (uniqueFirst (sel.map fun x => x.questionId)).length)
    (hfq : f.questionsQuery = false) (hfo : f.optionsQuery = false) :
    ((∃ so ∈ sel, ∀ o ∈ s.options, o.id = so.optionId →
        o.question_id ∉ uniqueFirst (sel.map fun x => x.questionId)) →
      validateAndScore s qs sel (uniqueFirst (sel.map fun x => x.questionId)) f
        = .error (.badRequest "One or more options do not match the provided questions.")) ∧
    ((∀ so ∈ sel, ∃ o ∈ s.options, o.id = so.optionId ∧
        o.question_id ∈ uniqueFirst (sel.map fun x => x.questionId)) →
      (∃ so ∈ sel, ∃ o ∈ s.options, o.id = so.optionId ∧ o.question_id ≠ so.questionId) →
      validateAndScore s qs sel (uniqueFirst (sel.map fun x => x.questionId)) f
        = .error (.badRequest "One or more options do not belong to their provided question.")) := by
  have hUpos := length_uniqueFirst_pos hne
  constructor
  · rintro ⟨so, hso, hout⟩
    simp only [validateAndScore]
    rw [if_pos hUpos, hfq, if_neg Bool.false_ne_true, if_neg (not_ne_iff.mpr hqlen),
      hfo, if_neg Bool.false_ne_true]
    have hlt :
        (s.options.filter fun o =>
          decide (o.id ∈ uniqueFirst (sel.map fun x => x.optionId) ∧
            o.question_id ∈ uniqueFirst (sel.map fun x => x.questionId))).length
          < (uniqueFirst (sel.map fun x => x.optionId)).length := by
      apply filter_length_lt_of_missing (g := fun o => o.id) hndo nodup_uniqueFirst
      · exact fun r hr => (of_decide_eq_true ((List.mem_filter.mp hr).2)).1
      · exact mem_uniqueFirst.mpr (List.mem_map_of_mem _ hso)
      · intro r hr hrid
        exact hout r (List.mem_of_mem_filter hr) hrid
          (of_decide_eq_true ((List.mem_filter.mp hr).2)).2
    rw [if_pos (Nat.ne_of_lt hlt)]
  · rintro hcov ⟨so, hso, o, ho, hoid, hqneq⟩
    simp only [validateAndScore]
    rw [if_pos hUpos, hfq, if_neg Bool.false_ne_true, if_neg (not_ne_iff.mpr hqlen),
      hfo, if_neg Bool.false_ne_true]
    have holen :
        (s.options.filter fun o =>
          decide (o.id ∈ uniqueFirst (sel.map fun x => x.optionId) ∧
            o.question_id ∈ uniqueFirst (sel.map fun x => x.questionId))).length
          = (uniqueFirst (sel.map fun x => x.optionId)).length := by
      apply filter_length_of_cover (g := fun o => o.id) hndo nodup_uniqueFirst
      · exact fun r hr => (of_decide_eq_true ((List.mem_filter.mp hr).2)).1
      · intro u hu
        obtain ⟨so2, hso2, hso2id⟩ := List.mem_map.mp (mem_uniqueFirst.mp hu)
        obtain ⟨o2, ho2mem, ho2id, ho2q⟩ := hcov so2 hso2
        refine ⟨o2, List.mem_filter.mpr ⟨ho2mem, decide_eq_true ⟨?_, ho2q⟩⟩, by rw [ho2id, hso2id]⟩
        rw [ho2id, hso2id]
        exact hu
    rw [if_neg (not_ne_iff.mpr holen)]
    obtain ⟨o2, ho2mem, ho2id, ho2q⟩ := hcov so hso
    have hoo2 : o = o2 :=
      List.inj_on_of_nodup_map hndo ho ho2mem (by rw [hoid, ho2id])
    have hofilter : o ∈ s.options.filter fun o =>
        decide (o.id ∈ uniqueFirst (sel.map fun x => x.optionId) ∧
          o.question_id ∈ uniqueFirst (sel.map fun x => x.questionId)) := by
      refine List.mem_filter.mpr ⟨ho, decide_eq_true ⟨?_, hoo2 ▸ ho2q⟩⟩
      rw [hoid]
      exact mem_uniqueFirst.mpr (List.mem_map_of_mem _ hso)
    have hmap :
        jsMapGet
          ((s.options.filter fun o =>
            decide (o.id ∈ uniqueFirst (sel.map fun x => x.optionId) ∧
              o.question_id ∈ uniqueFirst (sel.map fun x => x.questionId))).map
            fun o => (o.id, o.question_id)) so.optionId = some o.question_id := by
      apply jsMapGet_eq_some_of_mem
      · rw [List.map_map]
        exact List.Nodup.sublist ((List.filter_sublist _).map _) hndo
      · exact List.mem_map.mpr ⟨o, hofilter, by rw [hoid]⟩
    have hany :
        (sel.any fun so2 =>
          decide (jsMapGet
            ((s.options.filter fun o =>
              decide (o.id ∈ uniqueFirst (sel.map fun x => x.optionId) ∧
                o.question_id ∈ uniqueFirst (sel.map fun x => x.questionId))).map
              fun o => (o.id, o.question_id)) so2.optionId ≠ some so2.questionId)) = true := by
      refine List.any_eq_true.mpr ⟨so, hso, decide_eq_true ?_⟩
      rw [hmap]
      intro hc
      injection hc with hc
      exact hqneq hc
    rw [if_pos hany]

/-- Witness for C10 (amended): the nonexistent option id `oX` yields the
"do not match" message; the existing option `o2_0` claimed against `q1`
alone, whose owning question `q2` lies outside the claimed set, also yields
the "do not match" message; and two options swapped between two claimed
questions yield the "do not belong" message. -/
theorem option_error_message_cases_witness :
    validateAndScore exStore exSession [⟨"q1", "oX"⟩]
        (uniqueFirst (([⟨"q1", "oX"⟩] : List SelectedOptionIn).map fun x => x.questionId))
        noFailures
      = .error (.badRequest "One or more options do not match the provided questions.") ∧
    validateAndScore exStore exSession [⟨"q1", "o2_0"⟩]
        (uniqueFirst (([⟨"q1", "o2_0"⟩] : List SelectedOptionIn).map fun x => x.questionId))
        noFailures
      = .error (.badRequest "One or more options do not match the provided questions.") ∧
    validateAndScore exStore exSession [⟨"q1", "o2_0"⟩, ⟨"q2", "o1_0"⟩]
        (uniqueFirst (([⟨"q1", "o2_0"⟩, ⟨"q2", "o1_0"⟩] : List SelectedOptionIn).map
          fun x => x.questionId))
        noFailures
      = .error (.badRequest "One or more options do not belong to their provided question.") := by
  refine ⟨?_, ?_, ?_⟩
  · exact (option_error_message_cases (by decide) (by decide) (by decide) rfl rfl).1 (by decide)
  · exact (option_error_message_cases (by decide) (by decide) (by decide) rfl rfl).1 (by decide)
  · exact (option_error_message_cases (by decide) (by decide) (by decide) rfl rfl).2
      (by decide) (by decide)

/-- Forward evaluation of the endpoint on the happy path of a non-empty
submission: delete the attempt's rows, insert the new rows, and persist the
computed score together with the `total_questions` snapshot (the existing
snapshot if numeric, else the number of answered questions). -/
theorem POST_run_nonempty {sid uid : String} {sel : List SelectedOptionIn}
    {f : Failures} {s : Store} {qs : QuizSession} {k : Int}
    (hsid : ¬ sid = "")
    (hdup : ¬ (uniqueFirst (sel.map fun so => so.questionId)).length
      ≠ (sel.map fun so => so.questionId).length)
    (hfq : ¬ f.sessionQuery = true)
    (hfind : s.sessions.find? (fun ss => decide (ss.id = sid ∧ ss.user_id = uid)) = some qs)
    (hval : validateAndScore s qs sel (uniqueFirst (sel.map fun so => so.questionId)) f
      = .ok k)
    (hfd : ¬ f.deleteSelected = true)
    (hlen0 : ¬ sel.length = 0)
    (hfi : ¬ f.insertSelected = true)
    (hfu : ¬ f.scoreUpdate = true) :
    POST sid (.valid sel) (some uid) f s =
      (.ok (sel.map fun so => SelectedOptionRow.mk qs.id so.questionId so.optionId),
       Store.mk
         (s.sessions.map fun ss =>
           if ss.id = qs.id then
             { ss with
                 score := some k,
                 total_questions := some (match qs.total_questions with
                   | some t => t
                   | none => ((uniqueFirst (sel.map fun so => so.questionId)).length : Int)) }
           else ss)
         s.questions s.options
         ((s.selected.filter fun row => decide (¬ row.quiz_session_id = qs.id)) ++
           (sel.map fun so => SelectedOptionRow.mk qs.id so.questionId so.optionId))) := by
  simp only [POST, hfind, hval]
  rw [if_neg hsid, if_neg hdup, if_neg hfq, if_neg hfd, if_neg hlen0, if_neg hfi, if_neg hfu]

/-- Forward evaluation of the endpoint on the happy path of an empty
submission: delete the attempt's rows and reset the score to null. -/
theorem POST_run_empty {sid uid : String} {f : Failures} {s : Store}
    {qs : QuizSession}
    (hsid : ¬ sid = "")
    (hfq : ¬ f.sessionQuery = true)
    (hfind : s.sessions.find? (fun ss => decide (ss.id = sid ∧ ss.user_id = uid)) = some qs)
    (hfd : ¬ f.deleteSelected = true)
    (hfr : ¬ f.scoreReset = true) :
    POST sid (.valid []) (some uid) f s =
      (.ok [],
       Store.mk
         (s.sessions.map fun ss => if ss.id = qs.id then { ss with score := none } else ss)
         s.questions s.options
         (s.selected.filter fun row => decide (¬ row.quiz_session_id = qs.id))) := by
  simp only [POST, hfind, validateAndScore, List.map_nil, uniqueFirst, uniqueFirstAux,
    List.length_nil]
  rw [if_neg hsid]
  norm_num
  rw [if_neg hfq, if_neg hfd, if_neg hfr]

/-- C6: for every authorized attempt and every prior store, submitting an
empty answer list responds 200 with an empty stored-rows array, deletes every
prior selected-answer row of that attempt (and no other row), resets the
attempt's persisted score to null, and does not delete the attempt itself. -/
theorem empty_submission_resets {sid uid : String} {s : Store} {qs : QuizSession}
    (hsid : sid ≠ "")
    (hfind : s.sessions.find? (fun ss => decide (ss.id = sid ∧ ss.user_id = uid))
      = some qs) :
    (POST sid (.valid []) (some uid) noFailures s).1 = .ok [] ∧
      (∀ row ∈ (POST sid (.valid []) (some uid) noFailures s).2.selected,
        row.quiz_session_id ≠ qs.id) ∧
      (∀ row ∈ s.selected, row.quiz_session_id ≠ qs.id →
        row ∈ (POST sid (.valid []) (some uid) noFailures s).2.selected) ∧
      (∃ ss ∈ (POST sid (.valid []) (some uid) noFailures s).2.sessions,
        ss.id = qs.id ∧ ss.score = none) ∧
      (POST sid (.valid []) (some uid) noFailures s).2.sessions.length
        = s.sessions.length := by
  have hrun := POST_run_empty (f := noFailures) hsid (by decide) hfind (by decide) (by decide)
  rw [hrun]
  refine ⟨rfl, ?_, ?_, ?_, ?_⟩
  · intro row hrow
    exact of_decide_eq_true ((List.mem_filter.mp hrow).2)
  · intro row hrow hne2
    exact List.mem_filter.mpr ⟨hrow, decide_eq_true hne2⟩
  · refine ⟨{ qs with score := none }, ?_, rfl, rfl⟩
    exact List.mem_map.mpr ⟨qs, List.mem_of_find?_eq_some hfind, by rw [if_pos rfl]⟩
  · exact List.length_map _ _

/-- Witness for C6: resetting the graded scenario attempt answers 200 with an
empty array and keeps the one session record. -/
theorem empty_submission_resets_witness :
    (POST "s1" (.valid []) (some "u1") noFailures exStoreGraded).1 = .ok [] ∧
      (POST "s1" (.valid []) (some "u1") noFailures exStoreGraded).2.sessions.length
        = exStoreGraded.sessions.length :=
  ⟨(empty_submission_resets (by decide)
      (show exStoreGraded.sessions.find?
          (fun ss => decide (ss.id = "s1" ∧ ss.user_id = "u1")) = some exGradedSession
        from rfl)).1,
   (empty_submission_resets (by decide)
      (show exStoreGraded.sessions.find?
          (fun ss => decide (ss.id = "s1" ∧ ss.user_id = "u1")) = some exGradedSession
        from rfl)).2.2.2.2⟩

/-- A store that already reflects a successful non-empty submission is a
fixed point of the endpoint: the attempt's rows split off as exactly the
submitted rows, every same-id session record already carries the computed
score and snapshot, so resubmitting returns the same rows and the same
store. -/
theorem POST_fixed_point {sid uid : String} {sel : List SelectedOptionIn}
    {f : Failures} {s0 : Store} {w : QuizSession} {k T : Int}
    (hsid : ¬ sid = "")
    (hdup : ¬ (uniqueFirst (sel.map fun so => so.questionId)).length
      ≠ (sel.map fun so => so.questionId).length)
    (hfq : ¬ f.sessionQuery = true)
    (hfind : s0.sessions.find? (fun ss => decide (ss.id = sid ∧ ss.user_id = uid))
      = some w)
    (hval : validateAndScore s0 w sel (uniqueFirst (sel.map fun so => so.questionId)) f
      = .ok k)
    (hfd : ¬ f.deleteSelected = true)
    (hlen0 : ¬ sel.length = 0)
    (hfi : ¬ f.insertSelected = true)
    (hfu : ¬ f.scoreUpdate = true)
    (hqt : w.total_questions = some T)
    (hsess : ∀ ss ∈ s0.sessions, ss.id = w.id →
      ss.score = some k ∧ ss.total_questions = some T)
    (hsplit : (s0.selected.filter fun row => decide (¬ row.quiz_session_id = w.id)) ++
        (sel.map fun so => SelectedOptionRow.mk w.id so.questionId so.optionId)
      = s0.selected) :
    POST sid (.valid sel) (some uid) f s0 =
      (.ok (sel.map fun so => SelectedOptionRow.mk w.id so.questionId so.optionId), s0) := by
  obtain ⟨sess0, q0, o0, seld0⟩ := s0
  rw [POST_run_nonempty hsid hdup hfq hfind hval hfd hlen0 hfi hfu]
  simp only [hqt]
  have hsessEq :
      (sess0.map fun ss =>
        if ss.id = w.id then { ss with score := some k, total_questions := some T }
        else ss) = sess0 := by
    conv_rhs => rw [← List.map_id sess0]
    apply List.map_congr_left
    intro a hmem
    by_cases hc : a.id = w.id
    · rw [if_pos hc]
      obtain ⟨h1, h2⟩ := hsess a hmem hc
      rcases a with ⟨aid, aqz, aur, asc, atq⟩
      simp only at h1 h2
      subst h1
      subst h2
      rfl
    · rw [if_neg hc]
      rfl
  have hselEq :
      ((seld0.filter fun row => decide (¬ row.quiz_session_id = w.id)) ++
        sel.map fun so => SelectedOptionRow.mk w.id so.questionId so.optionId)
      = seld0 := hsplit
  rw [hsessEq, hselEq]

/-- C8: resubmission is idempotent — if a non-empty submission succeeded with
stored rows `r1` and resulting store `st1`, submitting the identical payload
again succeeds with the same rows and leaves the store exactly `st1`: rows
are replaced, not duplicated, and the persisted score is unchanged. -/
theorem resubmission_idempotent {sid uid : String} {sel : List SelectedOptionIn}
    {f : Failures} {s st1 : Store} {r1 : List SelectedOptionRow}
    (hne : sel ≠ [])
    (h : POST sid (.valid sel) (some uid) f s = (.ok r1, st1)) :
    POST sid (.valid sel) (some uid) f st1 = (.ok r1, st1) := by
  simp only [POST] at h
  split at h
  · exact absurd h (by simp)
  rename_i hsid
  split at h
  · exact absurd h (by simp)
  rename_i hdup
  split at h
  · exact absurd h (by simp)
  rename_i hfq
  split at h
  · exact absurd h (by simp)
  rename_i xfind qs hfind
  split at h
  · rename_i xval response hvalerr
    injection h with h1 h2
    subst h1
    rcases validateAndScore_error_status hvalerr with h4 | h4 <;>
      simp [PostResponse.status] at h4
  rename_i xval k hval
  split at h
  · exact absurd h (by simp)
  rename_i hfd
  split at h
  · rename_i hlen0
    exact absurd (List.length_eq_zero.mp hlen0) hne
  rename_i hlen0
  split at h
  · exact absurd h (by simp)
  rename_i hfi
  split at h
  · exact absurd h (by simp)
  rename_i hfu
  injection h with h1 h2
  injection h1 with h1
  subst h1
  subst h2
  have hpinv : ∀ a : QuizSession,
      (decide (((if a.id = qs.id then
          { a with
              score := some k,
              total_questions := some (match qs.total_questions with
                | some t => t
                | none =>
                  ((uniqueFirst (sel.map fun so => so.questionId)).length : Int)) }
        else a) : QuizSession).id = sid ∧
        ((if a.id = qs.id then
          { a with
              score := some k,
              total_questions := some (match qs.total_questions with
                | some t => t
                | none =>
                  ((uniqueFirst (sel.map fun so => so.questionId)).length : Int)) }
        else a) : QuizSession).user_id = uid))
        = decide (a.id = sid ∧ a.user_id = uid) := by
    intro a
    by_cases hc : a.id = qs.id
    · rw [if_pos hc]
    · rw [if_neg hc]
  have hupd :
      ((if qs.id = qs.id then
        { qs with
            score := some k,
            total_questions := some (match qs.total_questions with
              | some t => t
              | none =>
                ((uniqueFirst (sel.map fun so => so.questionId)).length : Int)) }
      else qs) : QuizSession)
      = { qs with
            score := some k,
            total_questions := some (match qs.total_questions with
              | some t => t
              | none =>
                ((uniqueFirst (sel.map fun so => so.questionId)).length : Int)) } :=
    if_pos rfl
  have hfind2 :
      (s.sessions.map fun ss =>
        if ss.id = qs.id then
          { ss with
              score := some k,
              total_questions := some (match qs.total_questions with
                | some t => t
                | none =>
                  ((uniqueFirst (sel.map fun so => so.questionId)).length : Int)) }
        else ss).find? (fun ss => decide (ss.id = sid ∧ ss.user_id = uid))
      = some ({ qs with
            score := some k,
            total_questions := some (match qs.total_questions with
              | some t => t
              | none =>
                ((uniqueFirst (sel.map fun so => so.questionId)).length : Int)) }) := by
    rw [find?_map_of_pred_invariant _ _ _ hpinv, hfind, Option.map_some', hupd]
  refine POST_fixed_point
    (k := k)
    (w := { qs with
        score := some k,
        total_questions := some (match qs.total_questions with
          | some t => t
          | none => ((uniqueFirst (sel.map fun so => so.questionId)).length : Int)) })
    hsid hdup hfq hfind2 ?_ hfd hlen0 hfi hfu rfl ?_ ?_
  · exact (validateAndScore_congr rfl rfl rfl sel
      (uniqueFirst (sel.map fun so => so.questionId)) f).trans hval
  · intro ss hss hid
    obtain ⟨a, hamem, hmap⟩ := List.mem_map.mp hss
    by_cases hc : a.id = qs.id
    · rw [if_pos hc] at hmap
      subst hmap
      exact ⟨rfl, rfl⟩
    · rw [if_neg hc] at hmap
      subst hmap
      exact absurd hid hc
  · rw [List.filter_append]
    have hAf :
        ((s.selected.filter fun row => decide (¬ row.quiz_session_id = qs.id)).filter
          fun row => decide (¬ row.quiz_session_id = qs.id))
        = s.selected.filter fun row => decide (¬ row.quiz_session_id = qs.id) :=
      List.filter_eq_self.mpr fun a ha => (List.mem_filter.mp ha).2
    have hRf :
        ((sel.map fun so => SelectedOptionRow.mk qs.id so.questionId so.optionId).filter
          fun row => decide (¬ row.quiz_session_id = qs.id)) = [] := by
      apply List.filter_eq_nil_iff.mpr
      intro a ha
      obtain ⟨so, _, rfl⟩ := List.mem_map.mp ha
      simp
    rw [hAf, hRf, List.append_nil]

/-- Witness for C8: resubmitting the scenario payload to the already
submitted store returns the same rows and the identical store. -/
theorem resubmission_idempotent_witness :
    POST "s1" (.valid exPayload) (some "u1") noFailures exStoreSubmitted =
      (.ok [⟨"s1", "q1", "o1_0"⟩, ⟨"s1", "q2", "o2_2"⟩, ⟨"s1", "q3", "o3_3"⟩],
       exStoreSubmitted) :=
  resubmission_idempotent (by decide)
    (show POST "s1" (.valid exPayload) (some "u1") noFailures exStore =
        (.ok [⟨"s1", "q1", "o1_0"⟩, ⟨"s1", "q2", "o2_2"⟩, ⟨"s1", "q3", "o3_3"⟩],
         exStoreSubmitted)
      from rfl)

/-- C5 (amended): in the sessions listing, an attempt whose persisted score
and `total_questions` are both non-null is shown with exactly that persisted
score and total; a fallback (reconciled) result is shown only for attempts
whose persisted score is null; and an attempt with a non-null score but a
null total is shown "Not graded yet".  (The detail view recomputes its score
from the stored selections and does not read the persisted score.) -/
theorem listing_display_rules {s : Store} {userId : String} {session : QuizSession}
    {disp : ScoreDisplay} (h : (session, disp) ∈ quizSessionsListing s userId) :
    (∀ sc tq, session.score = some sc → session.total_questions = some tq →
      disp = .graded sc tq) ∧
    (∀ a b, disp = .fallback a b → session.score = none) ∧
    (∀ sc, session.score = some sc → session.total_questions = none →
      disp = .notGraded) := by
  simp only [quizSessionsListing] at h
  obtain ⟨sess0, hmem, heq⟩ := List.mem_map.mp h
  injection heq with he1 he2
  subst he1
  subst he2
  refine ⟨?_, ?_, ?_⟩
  · intro sc tq h1 h2
    simp [sessionScoreDisplay, h1, h2]
  · intro a b hd
    rcases hsc : sess0.score with _ | sc
    · rfl
    · rcases htq : sess0.total_questions with _ | tq <;>
        simp [sessionScoreDisplay, hsc, htq] at hd
  · intro sc h1 h2
    simp [sessionScoreDisplay, h1, h2]

/-- Witness for C5 (amended): the graded scenario attempt (score 2 of 3) is
listed as exactly 2 / 3. -/
theorem listing_display_rules_witness :
    (exGradedSession, ScoreDisplay.graded 2 3) ∈
        quizSessionsListing exStoreGraded "u1" ∧
      ScoreDisplay.graded 2 3 = ScoreDisplay.graded 2 3 :=
  ⟨by decide,
   (@listing_display_rules exStoreGraded "u1" exGradedSession
      (ScoreDisplay.graded 2 3) (by decide)).1
     2 3 rfl rfl⟩

end ToeicPractice
